import Mathlib

/-!
Verification development for the KZG chunk verifier
(`encoding/kzgrs/verifier/verifier.go`).

The verifier code itself (the cache of parametrized verification contexts, the
low-degree proof check `VerifyCommit`, the multi-reveal frame check
`VerifyFrame`/`VerifyFrames`, and the `Decode` glue) is embedded directly from
the source.  Its external collaborators — the bn254 pairing/field primitive
library, the SRS provider that reads G1/G2 points from storage, the
Reed-Solomon erasure coder, and the `EncodingParams` validation predicate — are
not part of the verified sources and are modelled from the design document, as
flagged in the doc comments below.  Pairing groups are modelled in exponent
representation (every group is the cyclic group of the scalar-field order,
written additively as `ZMod frOrder`, and the pairing is multiplication of
exponents), which is the standard idealization of a pairing-friendly curve and
supports the bilinear identities the checks rely on.
-/

/-- Modelled from the spec: the order of the BN254 scalar field used by the
external pairing library (`pkg/kzg/bn254`, an external collaborator). -/
def frOrder : ℕ := 21888242871839275222246405745257275088548364400416034343698204186575808495617

/-- Modelled from the spec: scalar field elements (`bls.Fr`). -/
abbrev Fr : Type := ZMod frOrder

/-- Modelled from the spec: G1 group elements, in exponent representation
relative to the G1 generator. -/
abbrev G1Point : Type := ZMod frOrder

/-- Modelled from the spec: G2 group elements, in exponent representation
relative to the G2 generator. -/
abbrev G2Point : Type := ZMod frOrder

/-- Modelled from the spec: target-group elements of the pairing, in exponent
representation. -/
abbrev GTPoint : Type := ZMod frOrder

/-- Modelled from the spec: the G1 generator constant (`bls.GenG1`). -/
def GenG1 : G1Point := 1

/-- Modelled from the spec: the G2 generator constant (`bls.GenG2`). -/
def GenG2 : G2Point := 1

/-- Modelled from the spec: the multiplicative identity of the scalar field
(`bls.ONE`). -/
def ONE : Fr := 1

/-- Modelled from the spec: scalar-field multiplication (`bls.MulModFr`). -/
def MulModFr (a b : Fr) : Fr := a * b

/-- Modelled from the spec: scalar multiplication on G2 (`bls.MulG2`); in
exponent representation the scalar multiplies the exponent. -/
def MulG2 (g : G2Point) (s : Fr) : G2Point := s * g

/-- Modelled from the spec: group subtraction on G1 (`bls.SubG1`). -/
def SubG1 (a b : G1Point) : G1Point := a - b

/-- Modelled from the spec: group subtraction on G2 (`bls.SubG2`). -/
def SubG2 (a b : G2Point) : G2Point := a - b

/-- Modelled from the spec: the bilinear pairing, in exponent representation
the product of the two exponents. -/
def pairing (a : G1Point) (b : G2Point) : GTPoint := a * b

/-- Modelled from the spec: the 4-point pairing check of the primitive library
(`bls.PairingsVerify`): accepts exactly when e(a1, a2) == e(b1, b2). -/
def PairingsVerify (a1 : G1Point) (a2 : G2Point) (b1 : G1Point) (b2 : G2Point) : Bool :=
  decide (pairing a1 a2 = pairing b1 b2)

/-- Modelled from the spec: linear combination of G1 points weighted by scalar
coefficients (`bls.LinCombG1`). -/
def LinCombG1 (points : List G1Point) (scalars : List Fr) : G1Point :=
  (List.zipWith (fun s p => s * p) scalars points).sum

/-- Embeds `kzg.SRS`: the ordered G1 and G2 point sequences of the structured
reference string. -/
structure SRS where
  G1 : List G1Point
  G2 : List G2Point

/-- Modelled from the spec: `kzg.FFTSettings`, the root-of-unity table for one
power-of-two width. -/
structure FFTSettings where
  MaxWidth : ℕ
  ExpandedRootsOfUnity : List Fr

/-- Modelled from the spec: `kzg.KZGSettings`, tying the root-of-unity table to
the shared SRS. -/
structure KZGSettings where
  Fs : FFTSettings
  Srs : SRS

/-- The promoted root-of-unity table of `KZGSettings` (the Go struct embeds
`FFTSettings`, so `ks.ExpandedRootsOfUnity` reads through the embedding). -/
def KZGSettings.ExpandedRootsOfUnity (ks : KZGSettings) : List Fr :=
  ks.Fs.ExpandedRootsOfUnity

/-- Embeds `encoding.Frame`: one erasure-coded chunk, its interpolating
polynomial's coefficients plus a single G1 opening proof. -/
structure Frame where
  Coeffs : List Fr
  Proof : G1Point

/-- Embeds `encoding.BlobCommitments`: the public claims about one blob. -/
structure BlobCommitments where
  Commitment : G1Point
  LengthCommitment : G2Point
  LengthProof : G2Point
  Length : ℕ

/-- Embeds `encoding.EncodingParams`: the chunk count and chunk length of one
erasure-coding configuration. -/
structure EncodingParams where
  NumChunks : ℕ
  ChunkLength : ℕ
deriving DecidableEq

/-- Embeds `EncodingParams.NumEvaluations`: the total evaluation count. -/
def EncodingParams.NumEvaluations (p : EncodingParams) : ℕ :=
  p.NumChunks * p.ChunkLength

/-- The error outcomes of the verifier, one constructor per distinct error the
source can produce or propagate. -/
inductive VError where
  | configError
  | srsPointError
  | settingsError
  | encoderError
  | lowDegreeProofFails
  | cosetIndexError
  | multirevealProofFails
  | decodeError
deriving DecidableEq

/-- Fuel-indexed floor base-2 logarithm (structural recursion so that it
evaluates by reduction). -/
def log2floorAux : ℕ → ℕ → ℕ
  | 0, _ => 0
  | fuel + 1, n => if n < 2 then 0 else log2floorAux fuel (n / 2) + 1

/-- Embeds the source's `uint8(math.Log2(float64 n))`: the floor base-2
logarithm, exact on the power-of-two inputs admitted by validation. -/
def log2floor (n : ℕ) : ℕ := log2floorAux n n

/-- Decides whether `n` is an exact power of two. -/
def isPow2 (n : ℕ) : Bool := n == 2 ^ log2floor n

/-- Modelled from the spec: `encoding.EncodingParams.Validate` (the `encoding`
package is outside the verified sources).  Per the design document the chunk
count and the total evaluation count must be positive and the evaluation count
an exact power of two; any violation is a configuration error. -/
def EncodingParams.Validate (p : EncodingParams) : Except VError Unit :=
  if 0 < p.NumChunks ∧ 0 < p.NumEvaluations ∧ isPow2 p.NumEvaluations = true then
    Except.ok ()
  else
    Except.error VError.configError

/-- Modelled from the spec: the erasure coder's coset indexing function
(`rs.GetLeadingCosetIndex`, outside the verified sources): maps a chunk
position with a total chunk count to the leading coset index, failing exactly
when the position is outside `[0, numChunks)`.  The concrete bijection on the
valid range is the coder's internal detail and is modelled as the identity. -/
def GetLeadingCosetIndex (i numChunks : ℕ) : Except VError ℕ :=
  if i < numChunks then Except.ok i else Except.error VError.cosetIndexError

/-- Embeds `rs.Frame`: a chunk reduced to its coefficient sequence. -/
structure RsFrame where
  Coeffs : List Fr

/-- Modelled from the spec: the Reed-Solomon erasure coder handle bound to one
`EncodingParams` (`rs.Encoder`, external collaborator); `reconstruct` is its
abstract reconstruction of the original byte stream from the chunks'
coefficient sequences and their indices. -/
structure RsEncoder where
  params : EncodingParams
  reconstruct : List (List Fr) → List ℕ → Except VError (List ℕ)

/-- Modelled from the spec: the erasure coder's decode operation
(`rs.Encoder.Decode`): reconstruct the byte stream from the chunks'
coefficient sequences and indices, then truncate the result to `maxInputSize`
bytes. -/
def RsEncoder.Decode (e : RsEncoder) (frames : List RsFrame) (indices : List ℕ)
    (maxInputSize : ℕ) : Except VError (List ℕ) :=
  match e.reconstruct (frames.map RsFrame.Coeffs) indices with
  | Except.error err => Except.error err
  | Except.ok data => Except.ok (data.take maxInputSize)

/-- Modelled from the spec: the construction capabilities of the collaborators
the verifier links against: the FFT root-of-unity table builder
(`kzg.NewFFTSettings`), the fallible KZG settings derivation
(`kzg.NewKZGSettings`), and the fallible erasure-coder constructor
(`rs.NewEncoder`). -/
structure Providers where
  newFFTSettings : ℕ → FFTSettings
  newKZGSettings : FFTSettings → SRS → Except VError KZGSettings
  rsNewEncoder : EncodingParams → Except VError RsEncoder

/-- Modelled from the spec: `kzgrs.KzgConfig` together with the SRS provider
capability it parametrizes: `readG1Point i` / `readG2Point i` fetch the SRS
element at index `i` from persistent storage (`kzgrs.ReadG1Point` /
`kzgrs.ReadG2Point`); `SRSOrder` is the configured SRS order. -/
structure KzgConfig where
  SRSOrder : ℕ
  readG1Point : ℕ → Except VError G1Point
  readG2Point : ℕ → Except VError G2Point

/-- Embeds `ParametrizedVerifier`: the precomputed verification context for one
fixed `EncodingParams`. -/
structure ParametrizedVerifier where
  cfg : KzgConfig
  Srs : SRS
  Encoder : RsEncoder
  Fs : FFTSettings
  Ks : KZGSettings

/-- The promoted `NumChunks` field (the Go struct embeds `rs.Encoder`, which
embeds `EncodingParams`). -/
def ParametrizedVerifier.NumChunks (v : ParametrizedVerifier) : ℕ :=
  v.Encoder.params.NumChunks

/-- Embeds `Verifier`: the SRS handle, the collaborator capabilities it links
against, and the cache of `ParametrizedVerifier` keyed by `EncodingParams`.
The Go map is modelled as an association list whose lookup prefers the most
recent insertion. -/
structure Verifier where
  cfg : KzgConfig
  Srs : SRS
  G2Trailing : List G2Point
  Verbose : Bool
  prov : Providers
  ParametrizedVerifiers : List (EncodingParams × ParametrizedVerifier)

/-- Lookup in the cache association list (Go map read). -/
def cacheLookup (c : List (EncodingParams × ParametrizedVerifier))
    (p : EncodingParams) : Option ParametrizedVerifier :=
  match c with
  | [] => none
  | (q, v) :: rest => if q = p then some v else cacheLookup rest p

/-- Insertion into the cache (Go map write; prepending shadows any older entry
for the same key under `cacheLookup`). -/
def insertVerifier (g : Verifier) (p : EncodingParams) (v : ParametrizedVerifier) : Verifier :=
  { g with ParametrizedVerifiers := (p, v) :: g.ParametrizedVerifiers }

/-- Embeds the unexported `newKzgVerifier`: validate the params, build the FFT
settings for `log2(NumEvaluations)`, derive the KZG settings from them and the
shared SRS, construct the erasure coder, and assemble the context. -/
def newKzgVerifier (g : Verifier) (params : EncodingParams) :
    Except VError ParametrizedVerifier :=
  match params.Validate with
  | Except.error e => Except.error e
  | Except.ok _ =>
    let n := log2floor params.NumEvaluations
    let fs := g.prov.newFFTSettings n
    match g.prov.newKZGSettings fs g.Srs with
    | Except.error e => Except.error e
    | Except.ok ks =>
      match g.prov.rsNewEncoder params with
      | Except.error e => Except.error e
      | Except.ok enc =>
        Except.ok { cfg := g.cfg, Srs := g.Srs, Encoder := enc, Fs := fs, Ks := ks }

/-- Embeds `GetKzgVerifier`: under the verifier's lock, validate the params,
look the cache up, and on a miss construct a new context, inserting it only
when construction succeeded.  Returned alongside is the verifier state after
the call. -/
def GetKzgVerifier (g : Verifier) (params : EncodingParams) :
    Except VError ParametrizedVerifier × Verifier :=
  match params.Validate with
  | Except.error e => (Except.error e, g)
  | Except.ok _ =>
    match cacheLookup g.ParametrizedVerifiers params with
    | some ver => (Except.ok ver, g)
    | none =>
      match newKzgVerifier g params with
      | Except.ok ver => (Except.ok ver, insertVerifier g params ver)
      | Except.error e => (Except.error e, g)

/-- Embeds the exported `NewKzgVerifier`: the cache-bypassing constructor (it
takes the lock and delegates to the unexported constructor; it never touches
the cache). -/
def NewKzgVerifier (g : Verifier) (params : EncodingParams) :
    Except VError ParametrizedVerifier :=
  newKzgVerifier g params

/-- Go uint64 subtraction: wraparound difference modulo 2^64, as performed by
`v.SRSOrder - length` in `VerifyCommit`. -/
def sub64 (a b : ℕ) : ℕ := (a + (2 ^ 64 - b % 2 ^ 64)) % 2 ^ 64

/-- Embeds `VerifyLowDegreeProof`: the pairing check
e(g1Challenge, lengthCommit) == e(GenG1, proof). -/
def VerifyLowDegreeProof (lengthCommit proof : G2Point) (g1Challenge : G1Point) : Bool :=
  PairingsVerify g1Challenge lengthCommit GenG1 proof

/-- Embeds `Verifier.VerifyCommit`: read the G1 SRS element at index
`SRSOrder - length` (uint64 arithmetic), propagate a read failure, and accept
exactly when the low-degree pairing check passes. -/
def Verifier.VerifyCommit (v : Verifier) (lengthCommit lowDegreeProof : G2Point)
    (length : ℕ) : Except VError Unit :=
  match v.cfg.readG1Point (sub64 v.cfg.SRSOrder length) with
  | Except.error e => Except.error e
  | Except.ok g1Challenge =>
    if VerifyLowDegreeProof lengthCommit lowDegreeProof g1Challenge then
      Except.ok ()
    else
      Except.error VError.lowDegreeProofFails

/-- Embeds `Verifier.VerifyBlobLength`: delegate to `VerifyCommit` on the blob's
length commitment, length proof and claimed length. -/
def Verifier.VerifyBlobLength (v : Verifier) (commitments : BlobCommitments) :
    Except VError Unit :=
  v.VerifyCommit commitments.LengthCommitment commitments.LengthProof commitments.Length

/-- Embeds the `xPow` loop of the package-level `VerifyFrame`: start from the
multiplicative identity `ONE` and multiply by `x` once per loop iteration
(`n` iterations for `n` coefficients). -/
def xPowLoop (x : Fr) : ℕ → Fr
  | 0 => ONE
  | n + 1 => MulModFr (xPowLoop x n) x

/-- Embeds the package-level `VerifyFrame`: compute `x^n` by the repeated
multiplication loop, form `[s^n - x^n]` in G2 and the interpolation commitment
as the linear combination of the first `n` SRS G1 points weighted by the
frame's coefficients, and run the pairing check
e(commitment - interpolation, GenG2) == e(proof, [s^n - x^n]). -/
def VerifyFrame (f : Frame) (ks : KZGSettings) (commitment : G1Point) (x : Fr)
    (g2Atn : G2Point) : Bool :=
  let xPow := xPowLoop x f.Coeffs.length
  let xn2 := MulG2 GenG2 xPow
  let xnMinusYn := SubG2 g2Atn xn2
  let is1 := LinCombG1 (ks.Srs.G1.take f.Coeffs.length) f.Coeffs
  let commitMinusInterpolation := SubG1 commitment is1
  PairingsVerify commitMinusInterpolation GenG2 f.Proof xnMinusYn

/-- Embeds the method `(*ParametrizedVerifier).VerifyFrame`: derive the leading
coset index from the chunk index and chunk count, read the G2 SRS element at
the coefficient count, look the coset evaluation point up in the
root-of-unity table, and run the pairing check, mapping a failed check to the
multireveal-proof error. -/
def ParametrizedVerifier.VerifyFrameM (v : ParametrizedVerifier) (commit : G1Point)
    (f : Frame) (index : ℕ) : Except VError Unit :=
  match GetLeadingCosetIndex index v.NumChunks with
  | Except.error e => Except.error e
  | Except.ok j =>
    match v.cfg.readG2Point f.Coeffs.length with
    | Except.error e => Except.error e
    | Except.ok g2Atn =>
      if VerifyFrame f v.Ks commit (v.Ks.ExpandedRootsOfUnity.getD j (0 : Fr)) g2Atn then
        Except.ok ()
      else
        Except.error VError.multirevealProofFails

/-- Embeds the loop of `VerifyFrames`: walk the frames in order, pairing the
frame at each position with the index at the same position of the indices
list; return the first failing chunk's error, or success after the last frame.
The `none` outcome models the Go runtime fault (out-of-bounds read of the
indices list) that occurs when the loop reaches a frame position with no
corresponding index. -/
def verifyFramesLoop (pv : ParametrizedVerifier) (commit : G1Point) :
    List Frame → List ℕ → Option (Except VError Unit)
  | [], _ => some (Except.ok ())
  | _ :: _, [] => none
  | f :: fs, i :: is =>
    match pv.VerifyFrameM commit f i with
    | Except.error e => some (Except.error e)
    | Except.ok _ => verifyFramesLoop pv commit fs is

/-- Embeds `Verifier.VerifyFrames`: obtain the parametrized context for the
params (propagating its error) and verify the frames in order against the one
commitment; the returned pair carries the outcome (with `none` modelling an
out-of-bounds runtime fault) and the verifier state after the call. -/
def Verifier.VerifyFrames (v : Verifier) (frames : List Frame) (indices : List ℕ)
    (commitments : BlobCommitments) (params : EncodingParams) :
    Option (Except VError Unit) × Verifier :=
  match GetKzgVerifier v params with
  | (Except.error e, vAfter) => (some (Except.error e), vAfter)
  | (Except.ok pv, vAfter) =>
    (verifyFramesLoop pv commitments.Commitment frames indices, vAfter)

/-- Embeds `toUint64Array`: the elementwise widening of chunk numbers, the
identity on the modelled naturals. -/
def toUint64Array (chunkIndices : List ℕ) : List ℕ :=
  chunkIndices.map (fun d => d)

/-- Embeds `Verifier.Decode`: strip each chunk to its coefficient sequence,
obtain the parametrized context for the params (propagating its error), and
delegate to the erasure coder's decode bound to those params with the
`maxInputSize` trim bound. -/
def Verifier.Decode (v : Verifier) (chunks : List Frame) (indices : List ℕ)
    (params : EncodingParams) (maxInputSize : ℕ) :
    Except VError (List ℕ) × Verifier :=
  let frames := chunks.map (fun c => RsFrame.mk c.Coeffs)
  match GetKzgVerifier v params with
  | (Except.error e, vAfter) => (Except.error e, vAfter)
  | (Except.ok pv, vAfter) =>
    (pv.Encoder.Decode frames (toUint64Array indices) maxInputSize, vAfter)

/-- State-passing form of the frame-verification method: the method only reads
the shared context (the SRS through `pv` and the coset table), so the owning
verifier's state passes through unchanged. -/
def VerifyFrameSt (g : Verifier) (pv : ParametrizedVerifier) (commit : G1Point)
    (f : Frame) (index : ℕ) : Except VError Unit × Verifier :=
  (pv.VerifyFrameM commit f index, g)

/-- Well-formedness of the cache: every stored entry was built by the verifier's
own constructor from exactly its validated key. -/
def CacheWF (g : Verifier) : Prop :=
  ∀ p v, (p, v) ∈ g.ParametrizedVerifiers →
    p.Validate = Except.ok () ∧ newKzgVerifier g p = Except.ok v

/-- A concrete configuration used to evaluate the development on explicit
inputs: SRS order 4, every G1 read yields the exponent-5 point, every G2 read
yields the identity. -/
def cfgW : KzgConfig :=
  { SRSOrder := 4
    readG1Point := fun _ => Except.ok (5 : G1Point)
    readG2Point := fun _ => Except.ok (0 : G2Point) }

/-- A concrete SRS with four G1 points. -/
def srsW : SRS := { G1 := [1, 1, 1, 1], G2 := [] }

/-- Concrete collaborator capabilities: a one-entry root table, settings
derivation and coder construction that always succeed, and a coder whose
reconstruction returns the empty byte stream. -/
def provW : Providers :=
  { newFFTSettings := fun n => { MaxWidth := 2 ^ n, ExpandedRootsOfUnity := [1] }
    newKZGSettings := fun fs srs => Except.ok { Fs := fs, Srs := srs }
    rsNewEncoder := fun p =>
      Except.ok { params := p, reconstruct := fun _ _ => Except.ok [] } }

/-- A concrete verifier with an empty cache. -/
def verW : Verifier :=
  { cfg := cfgW, Srs := srsW, G2Trailing := [], Verbose := false, prov := provW
    ParametrizedVerifiers := [] }

/-- Valid concrete params: one chunk of length two (two evaluations, a power of
two). -/
def ep0 : EncodingParams := { NumChunks := 1, ChunkLength := 2 }

/-- Invalid concrete params: six evaluations, not a power of two. -/
def epBad : EncodingParams := { NumChunks := 3, ChunkLength := 2 }

/-- The parametrized context `newKzgVerifier verW ep0` produces. -/
def pv0 : ParametrizedVerifier :=
  { cfg := cfgW
    Srs := srsW
    Encoder := { params := ep0, reconstruct := fun _ _ => Except.ok [] }
    Fs := { MaxWidth := 2 ^ 1, ExpandedRootsOfUnity := [1] }
    Ks := { Fs := { MaxWidth := 2 ^ 1, ExpandedRootsOfUnity := [1] }, Srs := srsW } }

/-- A concrete frame with no coefficients and the identity proof; it verifies
against the identity commitment at any coset of `pv0`. -/
def f0 : Frame := { Coeffs := [], Proof := 0 }

/-- Concrete blob commitments, all identity. -/
def cm0 : BlobCommitments :=
  { Commitment := 0, LengthCommitment := 0, LengthProof := 0, Length := 0 }

/-- Additional concrete chunk lists for decoding: equal coefficient sequences,
different proofs. -/
def chA : List Frame := [{ Coeffs := [1], Proof := 0 }]

/-- As `chA` but with a different `Proof` field. -/
def chB : List Frame := [{ Coeffs := [1], Proof := 7 }]

theorem xPowLoop_eq_pow (x : Fr) (n : ℕ) : xPowLoop x n = x ^ n := by
  induction n with
  | zero => simp [xPowLoop, ONE]
  | succ n ih => simp [xPowLoop, MulModFr, ih, pow_succ]

theorem sub64_eq_sub (a b : ℕ) (hb : b ≤ a) (ha : a < 2 ^ 64) : sub64 a b = a - b := by
  unfold sub64
  have hblt : b < 2 ^ 64 := lt_of_le_of_lt hb ha
  rw [Nat.mod_eq_of_lt hblt]
  have h1 : a + (2 ^ 64 - b) = (a - b) + 2 ^ 64 := by omega
  rw [h1, Nat.add_mod_right]
  exact Nat.mod_eq_of_lt (by omega)

/-- C6: in frame verification the scalar `x^n` (with `n` the coefficient count)
is computed by repeated field multiplication starting from the multiplicative
identity, one multiplication per step, and the loop's value equals the `n`-th
power of `x` in the scalar field (for `n = 0` it is the identity). -/
theorem xPow_repeated_mul_eq_pow :
    (∀ (x : Fr) (n : ℕ), xPowLoop x n = x ^ n) ∧
      (∀ x : Fr, xPowLoop x 0 = ONE) ∧
      (∀ (x : Fr) (n : ℕ), xPowLoop x (n + 1) = MulModFr (xPowLoop x n) x) :=
  ⟨xPowLoop_eq_pow, fun _ => rfl, fun _ _ => rfl⟩

/-- C1: for a frame with `n` coefficients (the SRS holding at least `n` G1
points), `VerifyFrame` returns true exactly when
e(commitment - LinComb(G1[0..n-1], coeffs), GenG2) == e(proof, g2Atn - x^n * GenG2),
where the interpolation commitment is the linear combination of the first `n`
SRS G1 points weighted by the frame's coefficients. -/
theorem verifyFrame_pairing_iff (f : Frame) (ks : KZGSettings) (c : G1Point) (x : Fr)
    (g2Atn : G2Point) (h : f.Coeffs.length ≤ ks.Srs.G1.length) :
    VerifyFrame f ks c x g2Atn = true ↔
      pairing (SubG1 c (LinCombG1 (ks.Srs.G1.take f.Coeffs.length) f.Coeffs)) GenG2 =
        pairing f.Proof (SubG2 g2Atn (MulG2 GenG2 (x ^ f.Coeffs.length))) := by
  simp [VerifyFrame, PairingsVerify, xPowLoop_eq_pow]

theorem verifyFrame_pairing_iff_witness :
    f0.Coeffs.length ≤ pv0.Ks.Srs.G1.length ∧
      (VerifyFrame f0 pv0.Ks 0 1 0 = true ↔
        pairing (SubG1 0 (LinCombG1 (pv0.Ks.Srs.G1.take f0.Coeffs.length) f0.Coeffs)) GenG2 =
          pairing f0.Proof (SubG2 0 (MulG2 GenG2 ((1 : Fr) ^ f0.Coeffs.length)))) :=
  ⟨by decide, verifyFrame_pairing_iff f0 pv0.Ks 0 1 0 (by decide)⟩

/-- C2: for a claimed length at most the SRS order (the order fitting uint64),
the challenge index is `SRSOrder - length` (0 at the boundary), and, given the
read of that G1 SRS element succeeds, `VerifyCommit` returns no error exactly
when the pairing of the challenge element with the length commitment equals the
pairing of the G1 generator with the low-degree proof. -/
theorem verifyCommit_challenge_pairing (v : Verifier) (lc pf : G2Point) (length : ℕ)
    (g : G1Point) (hlen : length ≤ v.cfg.SRSOrder) (hord : v.cfg.SRSOrder < 2 ^ 64)
    (hread : v.cfg.readG1Point (v.cfg.SRSOrder - length) = Except.ok g) :
    sub64 v.cfg.SRSOrder length = v.cfg.SRSOrder - length ∧
      (v.VerifyCommit lc pf length = Except.ok () ↔ pairing g lc = pairing GenG1 pf) := by
  have hs := sub64_eq_sub _ _ hlen hord
  refine ⟨hs, ?_⟩
  unfold Verifier.VerifyCommit
  rw [hs, hread]
  by_cases hp : pairing g lc = pairing GenG1 pf
  · simp [VerifyLowDegreeProof, PairingsVerify, hp]
  · simp [VerifyLowDegreeProof, PairingsVerify, hp]

theorem verifyCommit_challenge_pairing_witness :
    sub64 verW.cfg.SRSOrder 4 = verW.cfg.SRSOrder - 4 ∧
      (verW.VerifyCommit 0 0 4 = Except.ok () ↔ pairing 5 0 = pairing GenG1 0) :=
  verifyCommit_challenge_pairing verW 0 0 4 5 (by decide) (by decide) rfl

/-- C4: on a cache miss with valid params and a successful construction, the
first call to the cached getter constructs and inserts the context, and a
second call with equal params returns exactly the stored value and leaves the
state unchanged (no second construction). -/
theorem getKzgVerifier_cached_second_call (g : Verifier) (params : EncodingParams)
    (v : ParametrizedVerifier)
    (hval : params.Validate = Except.ok ())
    (hmiss : cacheLookup g.ParametrizedVerifiers params = none)
    (hnew : newKzgVerifier g params = Except.ok v) :
    GetKzgVerifier g params = (Except.ok v, insertVerifier g params v) ∧
      cacheLookup (insertVerifier g params v).ParametrizedVerifiers params = some v ∧
      GetKzgVerifier (insertVerifier g params v) params =
        (Except.ok v, insertVerifier g params v) := by
  have h2 : cacheLookup (insertVerifier g params v).ParametrizedVerifiers params = some v := by
    simp [insertVerifier, cacheLookup]
  refine ⟨?_, h2, ?_⟩
  · simp only [GetKzgVerifier, hval, hmiss, hnew]
  · simp [GetKzgVerifier, hval, insertVerifier, cacheLookup]

theorem getKzgVerifier_cached_second_call_witness :
    GetKzgVerifier verW ep0 = (Except.ok pv0, insertVerifier verW ep0 pv0) ∧
      cacheLookup (insertVerifier verW ep0 pv0).ParametrizedVerifiers ep0 = some pv0 ∧
      GetKzgVerifier (insertVerifier verW ep0 pv0) ep0 =
        (Except.ok pv0, insertVerifier verW ep0 pv0) :=
  getKzgVerifier_cached_second_call verW ep0 pv0 rfl rfl rfl

/-- C5: for params failing validation, the cached getter returns a
configuration error leaving the state unchanged, and the cache-bypassing
constructor returns the same configuration error; neither produces a
parametrized verifier. -/
theorem invalid_params_config_error (g : Verifier) (params : EncodingParams)
    (hbad : params.Validate ≠ Except.ok ()) :
    GetKzgVerifier g params = (Except.error VError.configError, g) ∧
      NewKzgVerifier g params = Except.error VError.configError := by
  have hv : params.Validate = Except.error VError.configError := by
    by_cases hc : 0 < params.NumChunks ∧ 0 < params.NumEvaluations ∧
        isPow2 params.NumEvaluations = true
    · exact absurd (by simp [EncodingParams.Validate, hc]) hbad
    · simp [EncodingParams.Validate, hc]
  constructor
  · simp [GetKzgVerifier, hv]
  · simp [NewKzgVerifier, newKzgVerifier, hv]

theorem invalid_params_config_error_witness :
    GetKzgVerifier verW epBad = (Except.error VError.configError, verW) ∧
      NewKzgVerifier verW epBad = Except.error VError.configError :=
  invalid_params_config_error verW epBad
    (fun h => Except.noConfusion
      ((rfl : epBad.Validate = Except.error VError.configError).symm.trans h))

theorem verifyFramesLoop_first_error (pv : ParametrizedVerifier) (c : G1Point) :
    ∀ (k : ℕ) (frames : List Frame) (indices : List ℕ) (fk : Frame) (ik : ℕ) (e : VError),
      (∀ j f i, j < k → frames[j]? = some f → indices[j]? = some i →
        pv.VerifyFrameM c f i = Except.ok ()) →
      frames[k]? = some fk → indices[k]? = some ik →
      pv.VerifyFrameM c fk ik = Except.error e →
      verifyFramesLoop pv c frames indices = some (Except.error e) := by
  intro k
  induction k with
  | zero =>
    intro frames indices fk ik e hpre hf hi herr
    match frames, indices with
    | [], _ => simp at hf
    | _ :: _, [] => simp at hi
    | f :: fs, i :: is =>
      simp only [List.getElem?_cons_zero, Option.some.injEq] at hf hi
      subst hf
      subst hi
      simp [verifyFramesLoop, herr]
  | succ k ih =>
    intro frames indices fk ik e hpre hf hi herr
    match frames, indices with
    | [], _ => simp at hf
    | _ :: _, [] => simp at hi
    | f :: fs, i :: is =>
      have h0 : pv.VerifyFrameM c f i = Except.ok () :=
        hpre 0 f i (Nat.succ_pos k) (by simp) (by simp)
      simp only [verifyFramesLoop, h0]
      exact ih fs is fk ik e
        (fun j f2 i2 hj hf2 hi2 =>
          hpre (j + 1) f2 i2 (by omega) (by simpa using hf2) (by simpa using hi2))
        (by simpa using hf) (by simpa using hi) herr

/-- C3 (amended): the batch entry point verifies the frames in order against
the one commitment and params set, stops at the first failing chunk, and
returns that chunk's error unchanged (the error value carries no added context
identifying which chunk failed). -/
theorem verifyFrames_first_error_short_circuit (v : Verifier) (frames : List Frame)
    (indices : List ℕ) (cm : BlobCommitments) (params : EncodingParams)
    (pv : ParametrizedVerifier) (vA : Verifier) (k : ℕ) (fk : Frame) (ik : ℕ) (e : VError)
    (hget : GetKzgVerifier v params = (Except.ok pv, vA))
    (hpre : ∀ j f i, j < k → frames[j]? = some f → indices[j]? = some i →
      pv.VerifyFrameM cm.Commitment f i = Except.ok ())
    (hf : frames[k]? = some fk) (hi : indices[k]? = some ik)
    (herr : pv.VerifyFrameM cm.Commitment fk ik = Except.error e) :
    (v.VerifyFrames frames indices cm params).1 = some (Except.error e) := by
  simp only [Verifier.VerifyFrames, hget]
  exact verifyFramesLoop_first_error pv cm.Commitment k frames indices fk ik e hpre hf hi herr

theorem verifyFrames_first_error_short_circuit_witness :
    (verW.VerifyFrames [f0, f0] [0, 5] cm0 ep0).1 =
      some (Except.error VError.cosetIndexError) :=
  verifyFrames_first_error_short_circuit verW [f0, f0] [0, 5] cm0 ep0 pv0
    (insertVerifier verW ep0 pv0) 1 f0 5 VError.cosetIndexError rfl
    (by
      intro j f i hj hf hi
      have hj0 : j = 0 := by omega
      subst hj0
      simp only [List.getElem?_cons_zero, Option.some.injEq] at hf hi
      subst hf
      subst hi
      rfl)
    rfl rfl rfl

/-- C3 counterexample: two batch calls over the same verifier whose first
failing chunk differs (position 0 in the first call, position 1 in the second)
return identical results, so the returned error contains no context from which
the failing chunk's position could be recovered. -/
theorem verifyFrames_error_no_chunk_context_cex :
    verW.VerifyFrames [f0] [5] cm0 ep0 = verW.VerifyFrames [f0, f0] [0, 5] cm0 ep0 ∧
      pv0.VerifyFrameM cm0.Commitment f0 5 = Except.error VError.cosetIndexError ∧
      pv0.VerifyFrameM cm0.Commitment f0 0 = Except.ok () ∧
      GetKzgVerifier verW ep0 = (Except.ok pv0, insertVerifier verW ep0 pv0) :=
  ⟨rfl, rfl, rfl, rfl⟩

theorem toUint64Array_id (l : List ℕ) : toUint64Array l = l := by
  simp [toUint64Array]

/-- C7: `Decode` hands the erasure coder exactly the chunks' coefficient
sequences (never the proofs) together with the indices, and returns the coder's
reconstruction truncated to `maxInputSize` bytes; hence two chunk lists with
equal coefficient sequences but different proofs decode identically. -/
theorem decode_coeffs_only_truncated :
    (∀ (v : Verifier) (chunks : List Frame) (indices : List ℕ) (params : EncodingParams)
        (maxInputSize : ℕ) (pv : ParametrizedVerifier) (vA : Verifier),
      GetKzgVerifier v params = (Except.ok pv, vA) →
      (v.Decode chunks indices params maxInputSize).1 =
        Except.map (fun data => data.take maxInputSize)
          (pv.Encoder.reconstruct (chunks.map Frame.Coeffs) indices)) ∧
      (∀ (v : Verifier) (chunks1 chunks2 : List Frame) (indices : List ℕ)
          (params : EncodingParams) (maxInputSize : ℕ),
        chunks1.map Frame.Coeffs = chunks2.map Frame.Coeffs →
        v.Decode chunks1 indices params maxInputSize =
          v.Decode chunks2 indices params maxInputSize) := by
  constructor
  · intro v chunks indices params maxInputSize pv vA hget
    simp only [Verifier.Decode, hget, toUint64Array_id, RsEncoder.Decode, List.map_map]
    have hcomp : (chunks.map (RsFrame.Coeffs ∘ fun c => RsFrame.mk c.Coeffs)) =
        chunks.map Frame.Coeffs := rfl
    rw [hcomp]
    cases hr : pv.Encoder.reconstruct (chunks.map Frame.Coeffs) indices with
    | error e => simp [Except.map]
    | ok data => simp [Except.map]
  · intro v chunks1 chunks2 indices params maxInputSize hco
    have hmap : chunks1.map (fun c => RsFrame.mk c.Coeffs) =
        chunks2.map (fun c => RsFrame.mk c.Coeffs) := by
      have h1 : chunks1.map (fun c => RsFrame.mk c.Coeffs) =
          (chunks1.map Frame.Coeffs).map RsFrame.mk := by simp [List.map_map]
      have h2 : chunks2.map (fun c => RsFrame.mk c.Coeffs) =
          (chunks2.map Frame.Coeffs).map RsFrame.mk := by simp [List.map_map]
      rw [h1, h2, hco]
    simp only [Verifier.Decode, hmap]

theorem decode_coeffs_only_truncated_witness :
    (verW.Decode chA [0] ep0 3).1 =
        Except.map (fun data => data.take 3)
          (pv0.Encoder.reconstruct (chA.map Frame.Coeffs) [0]) ∧
      verW.Decode chA [0] ep0 3 = verW.Decode chB [0] ep0 3 :=
  ⟨decode_coeffs_only_truncated.1 verW chA [0] ep0 3 pv0 (insertVerifier verW ep0 pv0) rfl,
   decode_coeffs_only_truncated.2 verW chA chB [0] ep0 3 rfl⟩

/-- C8: verifying the same frame twice with the same parametrized context,
commitment and index yields the same result both times, and neither call
modifies the owning verifier's state — in particular neither the cache nor the
SRS. -/
theorem verifyFrame_idempotent_no_state_change (g : Verifier) (pv : ParametrizedVerifier)
    (c : G1Point) (f : Frame) (i : ℕ) :
    (VerifyFrameSt g pv c f i).1 =
        (VerifyFrameSt ((VerifyFrameSt g pv c f i).2) pv c f i).1 ∧
      (VerifyFrameSt g pv c f i).2 = g ∧
      ((VerifyFrameSt g pv c f i).2).ParametrizedVerifiers = g.ParametrizedVerifiers ∧
      ((VerifyFrameSt g pv c f i).2).Srs = g.Srs :=
  ⟨rfl, rfl, rfl, rfl⟩

theorem verifyFramesLoop_enough_indices (pv : ParametrizedVerifier) (c : G1Point) :
    ∀ (frames : List Frame) (indices : List ℕ), frames.length ≤ indices.length →
      verifyFramesLoop pv c frames indices ≠ none := by
  intro frames
  induction frames with
  | nil => intro indices hlen; simp [verifyFramesLoop]
  | cons f fs ih =>
    intro indices hlen
    cases indices with
    | nil => simp at hlen
    | cons i is =>
      cases h1 : pv.VerifyFrameM c f i with
      | error e => simp [verifyFramesLoop, h1]
      | ok u =>
        simp only [verifyFramesLoop, h1]
        exact ih is (by simpa using hlen)

theorem verifyFramesLoop_short_indices (pv : ParametrizedVerifier) (c : G1Point) :
    ∀ (indices : List ℕ) (frames : List Frame), indices.length < frames.length →
      (∀ (j : ℕ) (f : Frame) (i : ℕ), frames[j]? = some f → indices[j]? = some i →
        pv.VerifyFrameM c f i = Except.ok ()) →
      verifyFramesLoop pv c frames indices = none := by
  intro indices
  induction indices with
  | nil =>
    intro frames hlen hall
    cases frames with
    | nil => simp at hlen
    | cons f fs => simp [verifyFramesLoop]
  | cons i is ih =>
    intro frames hlen hall
    cases frames with
    | nil => simp at hlen
    | cons f fs =>
      have h0 : pv.VerifyFrameM c f i = Except.ok () := hall 0 f i (by simp) (by simp)
      simp only [verifyFramesLoop, h0]
      exact ih fs (by simp at hlen ⊢; omega)
        (fun j f2 i2 hf hi => hall (j + 1) f2 i2 (by simpa using hf) (by simpa using hi))

/-- C9 (amended): the batch entry point indexes the indices list at each frame
position without checking the lists' lengths.  When the indices list is at
least as long as the frames list every such access is in bounds (no runtime
fault).  When it is shorter, the out-of-bounds access (a runtime fault, not a
returned error) occurs exactly if execution reaches the first uncovered
position, that is, when the parametrized context is obtained and the frames
before that position all verify successfully; an earlier failure returns its
error before the out-of-bounds position is reached. -/
theorem verifyFrames_indices_bounds :
    (∀ (v : Verifier) (frames : List Frame) (indices : List ℕ) (cm : BlobCommitments)
        (params : EncodingParams), frames.length ≤ indices.length →
        (v.VerifyFrames frames indices cm params).1 ≠ none) ∧
      (∀ (v : Verifier) (frames : List Frame) (indices : List ℕ) (cm : BlobCommitments)
          (params : EncodingParams) (pv : ParametrizedVerifier) (vA : Verifier),
        indices.length < frames.length →
        GetKzgVerifier v params = (Except.ok pv, vA) →
        (∀ (j : ℕ) (f : Frame) (i : ℕ), frames[j]? = some f → indices[j]? = some i →
          pv.VerifyFrameM cm.Commitment f i = Except.ok ()) →
        (v.VerifyFrames frames indices cm params).1 = none) := by
  constructor
  · intro v frames indices cm params hlen
    unfold Verifier.VerifyFrames
    cases hg : GetKzgVerifier v params with
    | mk r vA =>
      cases r with
      | error e => simp
      | ok pv => simpa using verifyFramesLoop_enough_indices pv cm.Commitment frames indices hlen
  · intro v frames indices cm params pv vA hlen hget hall
    simp only [Verifier.VerifyFrames, hget]
    exact verifyFramesLoop_short_indices pv cm.Commitment indices frames hlen hall

theorem verifyFrames_indices_bounds_witness :
    (verW.VerifyFrames [f0] [0, 5] cm0 ep0).1 ≠ none ∧
      (verW.VerifyFrames [f0, f0] [0] cm0 ep0).1 = none :=
  ⟨verifyFrames_indices_bounds.1 verW [f0] [0, 5] cm0 ep0 (by decide),
   verifyFrames_indices_bounds.2 verW [f0, f0] [0] cm0 ep0 pv0
     (insertVerifier verW ep0 pv0) (by decide) rfl
     (by
       intro j f i hf hi
       cases j with
       | zero =>
         simp only [List.getElem?_cons_zero, Option.some.injEq] at hf hi
         subst hf
         subst hi
         rfl
       | succ n =>
         cases n with
         | zero => simp at hi
         | succ m => simp at hf)⟩

/-- C9 counterexample: a call with fewer indices (one) than frames (two) whose
first chunk fails verification returns that chunk's error; the out-of-bounds
access of the indices list never happens, refuting that every such call
faults. -/
theorem verifyFrames_short_indices_no_panic_cex :
    ([5] : List ℕ).length < ([f0, f0] : List Frame).length ∧
      (verW.VerifyFrames [f0, f0] [5] cm0 ep0).1 =
        some (Except.error VError.cosetIndexError) :=
  ⟨by decide, rfl⟩

theorem newKzgVerifier_insert (g : Verifier) (q : EncodingParams)
    (w : ParametrizedVerifier) (p : EncodingParams) :
    newKzgVerifier (insertVerifier g q w) p = newKzgVerifier g p := rfl

theorem getKzgVerifier_step (g : Verifier) (params : EncodingParams) :
    (GetKzgVerifier g params).2 = g ∨
      ∃ v, params.Validate = Except.ok () ∧ newKzgVerifier g params = Except.ok v ∧
        cacheLookup g.ParametrizedVerifiers params = none ∧
        (GetKzgVerifier g params).2 = insertVerifier g params v ∧
        (GetKzgVerifier g params).1 = Except.ok v := by
  cases hv : params.Validate with
  | error e => left; simp [GetKzgVerifier, hv]
  | ok u =>
    cases u
    cases hl : cacheLookup g.ParametrizedVerifiers params with
    | some ver => left; simp [GetKzgVerifier, hv, hl]
    | none =>
      cases hn : newKzgVerifier g params with
      | error e => left; simp [GetKzgVerifier, hv, hl, hn]
      | ok ver =>
        right
        exact ⟨ver, rfl, rfl, rfl, by simp [GetKzgVerifier, hv, hl, hn],
          by simp [GetKzgVerifier, hv, hl, hn]⟩

/-- C10: the cache is only ever mutated by inserting a successfully constructed
verifier under its validated params key; a call whose outcome is an error
leaves the cache untouched; consequently the invariant that every cache entry
maps a valid `EncodingParams` to the verifier the constructor builds from
exactly that params is preserved by the cached getter. -/
theorem cache_insert_only_invariant :
    (∀ (g : Verifier) (params : EncodingParams),
        (GetKzgVerifier g params).2 = g ∨
          ∃ v, params.Validate = Except.ok () ∧ newKzgVerifier g params = Except.ok v ∧
            (GetKzgVerifier g params).2 = insertVerifier g params v) ∧
      (∀ (g : Verifier) (params : EncodingParams) (e : VError),
        (GetKzgVerifier g params).1 = Except.error e → (GetKzgVerifier g params).2 = g) ∧
      (∀ (g : Verifier) (params : EncodingParams),
        CacheWF g → CacheWF (GetKzgVerifier g params).2) := by
  refine ⟨?_, ?_, ?_⟩
  · intro g params
    rcases getKzgVerifier_step g params with h | ⟨v, h1, h2, h3, h4, h5⟩
    · exact Or.inl h
    · exact Or.inr ⟨v, h1, h2, h4⟩
  · intro g params e herr
    rcases getKzgVerifier_step g params with h | ⟨v, h1, h2, h3, h4, h5⟩
    · exact h
    · rw [h5] at herr; exact Except.noConfusion herr
  · intro g params hwf
    rcases getKzgVerifier_step g params with h | ⟨v, h1, h2, h3, h4, h5⟩
    · rw [h]; exact hwf
    · rw [h4]
      intro p w hmem
      rcases List.mem_cons.mp hmem with hhead | htail
      · have hp : p = params := congrArg Prod.fst hhead
        have hw : w = v := congrArg Prod.snd hhead
        rw [hp, hw]
        exact ⟨h1, (newKzgVerifier_insert g params v params).trans h2⟩
      · have hold := hwf p w htail
        exact ⟨hold.1, (newKzgVerifier_insert g params v p).trans hold.2⟩

theorem cache_insert_only_invariant_witness :
    ((GetKzgVerifier verW epBad).2 = verW ∨
        ∃ v, epBad.Validate = Except.ok () ∧ newKzgVerifier verW epBad = Except.ok v ∧
          (GetKzgVerifier verW epBad).2 = insertVerifier verW epBad v) ∧
      (GetKzgVerifier verW epBad).2 = verW ∧
      CacheWF (GetKzgVerifier verW ep0).2 :=
  ⟨cache_insert_only_invariant.1 verW epBad,
   cache_insert_only_invariant.2.1 verW epBad VError.configError rfl,
   cache_insert_only_invariant.2.2 verW ep0
     (by intro p v hmem; simp [verW] at hmem)⟩
